import Mathlib

/-!
Shallow embedding of the WiredTiger Recovery Unit
(`src/mongo/db/storage/wiredtiger/wiredtiger_recovery_unit.cpp`).

Modelling conventions:
* `Timestamp` is a `Nat`; the C++ `Timestamp()` null value is `0`
  (`isNull` becomes `= 0`).  `boost::optional<Timestamp>` becomes
  `Option Nat`.
* Change handlers are opaque: each registered handler is identified by a
  `Nat`.  Invoking a handler's callback is recorded as an `Event` rather
  than executed, so that ordering and arguments are observable.
* Calls into external collaborators (the storage engine session, the
  session cache, the oplog manager) are recorded as `Event`s; where the
  collaborator returns data or a status that steers control flow, that
  answer is supplied by an explicit oracle argument.
* Fatal assertions (`invariant`, `fassert`, `std::terminate`) become
  `Except.error Err.fatal`; `uasserted` exceptions that propagate to the
  caller become `Except.error (Err.thrown code)`.
* The process-wide atomic counter `nextSnapshotId` is an `AtomicUInt64`;
  it is threaded through the record as the field `ctr`, and its
  fetch-and-add is `fetchAndAdd`, which wraps modulo 2^64 exactly as the
  64-bit unsigned register does.  The process-wide allocation order
  itself is modelled by `snapshotIdSeq`.
* The slow-transaction timer and logging are diagnostics only and are not
  modelled; the `WTAlwaysNotifyPrepareConflictWaiters` fail point is the
  explicit boolean argument `fp` of commit/abort.
-/

namespace Mongo

/-- Timestamp values; 0 plays the role of the null `Timestamp()`. -/
abbrev Timestamp := Nat

/-- The six lifecycle states of `WiredTigerRecoveryUnit::State`. -/
inductive State where
  | kInactive
  | kInactiveInUnitOfWork
  | kActiveNotInUnitOfWork
  | kActive
  | kCommitting
  | kAborting
deriving DecidableEq, Repr

/-- Mirrors `WiredTigerRecoveryUnit::_isActive`. -/
def State.isActive : State → Bool
  | .kActiveNotInUnitOfWork => true
  | .kActive => true
  | _ => false

/-- Mirrors `WiredTigerRecoveryUnit::_inUnitOfWork`. -/
def State.inUnitOfWork : State → Bool
  | .kInactiveInUnitOfWork => true
  | .kActive => true
  | _ => false

/-- Mirrors `WiredTigerRecoveryUnit::_isCommittingOrAborting`. -/
def State.isCommittingOrAborting : State → Bool
  | .kCommitting => true
  | .kAborting => true
  | _ => false

/-- The `RecoveryUnit::ReadSource` enumeration. -/
inductive ReadSource where
  | kUnset
  | kNoTimestamp
  | kMajorityCommitted
  | kLastApplied
  | kLastAppliedSnapshot
  | kAllCommittedSnapshot
  | kProvided
deriving DecidableEq, Repr

/-- Error codes that steer control flow in the embedded fragment. -/
inductive ErrorCode where
  | BadValue
  | SnapshotTooOld
  | ReadConcernMajorityNotAvailableYet
  | other (n : Nat)
deriving DecidableEq, Repr

/-- How an operation of the recovery unit fails: `fatal` for invariant
failures / fasserts / `std::terminate`, `thrown code` for a `uasserted`
exception that propagates to the caller. -/
inductive Err where
  | fatal
  | thrown (code : ErrorCode)
deriving DecidableEq, Repr

/-- Observable calls made into external collaborators, in program order. -/
inductive Event where
  | engineBegin
  | engineSetReadTs (ts : Timestamp) (roundToOldest : Bool)
  | snapshotBeginCommitted
  | snapshotBeginLocal
  | engineTimestampTxn (ts : Timestamp)
  | enginePrepare (ts : Timestamp)
  | engineCommit
  | engineRollback
  | triggerJournalFlush
  | notifyPrepared
  | handlerCommit (h : Nat) (commitTime : Option Timestamp)
  | handlerRollback (h : Nat)
deriving DecidableEq, Repr

/-- Per-instance state of one `WiredTigerRecoveryUnit`, plus the threaded
process-wide snapshot-id counter `ctr` (the value `nextSnapshotId` holds
when this unit next allocates). -/
structure RecoveryUnit where
  state : State
  session : Bool
  mySnapshotId : Nat
  ctr : Nat
  changes : List Nat
  commitTimestamp : Timestamp
  lastTimestampSet : Option Timestamp
  prepareTimestamp : Timestamp
  readAtTimestamp : Timestamp
  majorityCommittedSnapshot : Timestamp
  timestampReadSource : ReadSource
  ignorePrepared : Bool
  isOplogReader : Bool
  orderedCommit : Bool
  isTimestamped : Bool
deriving DecidableEq, Repr

/-- Atomic `fetchAndAdd(1)` on the process-wide `nextSnapshotId` counter,
an `AtomicUInt64`: returns the held 64-bit value and stores its
successor, wrapping modulo 2^64 as unsigned 64-bit arithmetic does. -/
def fetchAndAdd (c : Nat) : Nat × Nat := (c % 2 ^ 64, (c + 1) % 2 ^ 64)

/-- The sequence of snapshot ids produced by `n` successive
`nextSnapshotId.fetchAndAdd(1)` calls starting from counter value `c`
(each construction of a recovery unit and each transaction close performs
one such call); the underlying 64-bit counter wraps modulo 2^64. -/
def snapshotIdSeq : Nat → Nat → List Nat
  | _, 0 => []
  | c, n + 1 =>
    let a := fetchAndAdd c
    a.1 :: snapshotIdSeq a.2 n

/-- Answers from external collaborators consulted while opening a
transaction (`_txnOpen`). -/
structure TxnOpenOracle where
  oplogReadTs : Timestamp
  oplogSetTsOK : Bool
  committedSnapshotTs : Timestamp
  localSnapshotAvailable : Bool
  localSnapshotTs : Timestamp
  allCommittedActualReadTs : Timestamp
  providedStatus : Option ErrorCode
deriving Repr

/-- The result of one recovery-unit operation: the new state plus the
trace of collaborator calls it made, or the error it ended in. -/
abbrev RUResult := Except Err (RecoveryUnit × List Event)

namespace RecoveryUnit

/-- Fresh recovery unit as built by the `WiredTigerRecoveryUnit`
constructor: `_mySnapshotId(nextSnapshotId.fetchAndAdd(1))` with the
counter at `c`; all other fields at their declared defaults. -/
def init (c : Nat) : RecoveryUnit :=
  { state := State.kInactive
    session := false
    mySnapshotId := (fetchAndAdd c).1
    ctr := (fetchAndAdd c).2
    changes := []
    commitTimestamp := 0
    lastTimestampSet := none
    prepareTimestamp := 0
    readAtTimestamp := 0
    majorityCommittedSnapshot := 0
    timestampReadSource := ReadSource.kUnset
    ignorePrepared := false
    isOplogReader := false
    orderedCommit := true
    isTimestamped := false }

/-- Mirrors `_ensureSession`: acquire a session from the cache if absent. -/
def ensureSession (ru : RecoveryUnit) : RecoveryUnit :=
  if ru.session then ru else { ru with session := true }

/-- Mirrors `WiredTigerRecoveryUnit::_txnClose(bool commit)`.  Applies a
pending `commitTimestamp` to the live transaction when committing, then
commits or rolls back, triggers the oplog journal flush for an unordered
timestamped transaction, and resets the per-transaction fields
(`lastTimestampSet`, `prepareTimestamp`, `isTimestamped`, `isOplogReader`,
`orderedCommit`) and the snapshot id.  Note `commitTimestamp` itself is
not reset here. -/
def txnClose (ru : RecoveryUnit) (commit : Bool) : RUResult :=
  if ¬ ru.state.isActive then .error .fatal else
  let applyCommitTs := commit && ru.commitTimestamp ≠ 0
  let tsEvents : List Event :=
    if applyCommitTs then [Event.engineTimestampTxn ru.commitTimestamp] else []
  let isTimestamped1 := ru.isTimestamped || applyCommitTs
  let closeEvent : Event := if commit then Event.engineCommit else Event.engineRollback
  let flushEvents : List Event :=
    if isTimestamped1 && ¬ ru.orderedCommit then [Event.triggerJournalFlush] else []
  if ru.lastTimestampSet.isSome && ru.commitTimestamp ≠ 0 then .error .fatal else
  .ok
    ({ ru with
        lastTimestampSet := none
        prepareTimestamp := 0
        mySnapshotId := (fetchAndAdd ru.ctr).1
        ctr := (fetchAndAdd ru.ctr).2
        isOplogReader := false
        orderedCommit := true
        isTimestamped := false },
      tsEvents ++ closeEvent :: flushEvents)

/-- Mirrors `WiredTigerRecoveryUnit::_commit` with fail point state `fp`:
compute the effective commit time, close the live transaction if any,
enter `kCommitting`, notify prepare-conflict waiters when the transaction
was prepared (or `fp`), run every change handler's commit callback in
insertion order, clear the change list and return to `kInactive`. -/
def commitImpl (ru : RecoveryUnit) (fp : Bool) : RUResult :=
  let commitTime : Option Timestamp :=
    if ru.commitTimestamp = 0 then ru.lastTimestampSet else some ru.commitTimestamp
  let notify0 := ru.prepareTimestamp ≠ 0
  match (if ru.session && ru.state.isActive then ru.txnClose true else .ok (ru, [])) with
  | .error e => .error e
  | .ok (ru1, ev1) =>
    let ru2 := { ru1 with state := State.kCommitting }
    let notifyDone := notify0 || fp
    let evN : List Event := if notifyDone then [Event.notifyPrepared] else []
    let evH : List Event := ru2.changes.map fun h => Event.handlerCommit h commitTime
    .ok ({ ru2 with changes := [], state := State.kInactive }, ev1 ++ evN ++ evH)

/-- Mirrors `WiredTigerRecoveryUnit::_abort` with fail point state `fp`:
close the live transaction with rollback if any, enter `kAborting`, notify
prepare-conflict waiters when the transaction was prepared (or `fp`), run
every change handler's rollback callback in reverse insertion order, clear
the change list and return to `kInactive`. -/
def abortImpl (ru : RecoveryUnit) (fp : Bool) : RUResult :=
  let notify0 := ru.prepareTimestamp ≠ 0
  match (if ru.session && ru.state.isActive then ru.txnClose false else .ok (ru, [])) with
  | .error e => .error e
  | .ok (ru1, ev1) =>
    let ru2 := { ru1 with state := State.kAborting }
    let notifyDone := notify0 || fp
    let evN : List Event := if notifyDone then [Event.notifyPrepared] else []
    let evH : List Event := ru2.changes.reverse.map fun h => Event.handlerRollback h
    .ok ({ ru2 with changes := [], state := State.kInactive }, ev1 ++ evN ++ evH)

/-- Mirrors `beginUnitOfWork`. -/
def beginUnitOfWork (ru : RecoveryUnit) : RUResult :=
  if ru.state.inUnitOfWork then .error .fatal
  else if ru.state.isCommittingOrAborting then .error .fatal
  else .ok ({ ru with
      state := if ru.state.isActive then State.kActive else State.kInactiveInUnitOfWork }, [])

/-- Mirrors `commitUnitOfWork`. -/
def commitUnitOfWork (ru : RecoveryUnit) (fp : Bool) : RUResult :=
  if ¬ ru.state.inUnitOfWork then .error .fatal else ru.commitImpl fp

/-- Mirrors `abortUnitOfWork`. -/
def abortUnitOfWork (ru : RecoveryUnit) (fp : Bool) : RUResult :=
  if ¬ ru.state.inUnitOfWork then .error .fatal else ru.abortImpl fp

/-- Mirrors `registerChange` (taking ownership of handler `h`). -/
def registerChange (ru : RecoveryUnit) (h : Nat) : RUResult :=
  if ¬ ru.state.inUnitOfWork then .error .fatal
  else .ok ({ ru with changes := ru.changes ++ [h] }, [])

/-- The shared tail of the `kProvided` case of `_txnOpen` (also reached by
fall-through from `kAllCommittedSnapshot` and `kLastAppliedSnapshot` when
`readAtTimestamp` is already set): open untimestamped, set the read
timestamp to `readAtTimestamp`; a `BadValue` rejection surfaces as
`SnapshotTooOld`, any other engine error surfaces unchanged. -/
def providedPath (ru : RecoveryUnit) (status : Option ErrorCode) : RUResult :=
  match status with
  | some ErrorCode.BadValue => .error (.thrown ErrorCode.SnapshotTooOld)
  | some e => .error (.thrown e)
  | none => .ok (ru, [Event.engineBegin, Event.engineSetReadTs ru.readAtTimestamp false])

/-- Mirrors `WiredTigerRecoveryUnit::_txnOpen`: ensure a session and begin
a transaction whose read view is chosen by `timestampReadSource`,
consulting the collaborators through the oracle `o`. -/
def txnOpen (ru : RecoveryUnit) (o : TxnOpenOracle) : RUResult :=
  if ru.state.isActive then .error .fatal
  else if ru.state.isCommittingOrAborting then .error .fatal
  else
  let ru := ru.ensureSession
  match ru.timestampReadSource with
  | ReadSource.kUnset | ReadSource.kNoTimestamp =>
    if ru.isOplogReader then
      if o.oplogSetTsOK then
        .ok (ru, [Event.engineBegin, Event.engineSetReadTs o.oplogReadTs true])
      else .error .fatal
    else .ok (ru, [Event.engineBegin])
  | ReadSource.kMajorityCommitted =>
    .ok ({ ru with majorityCommittedSnapshot := o.committedSnapshotTs },
      [Event.snapshotBeginCommitted])
  | ReadSource.kLastApplied =>
    if o.localSnapshotAvailable then
      .ok ({ ru with readAtTimestamp := o.localSnapshotTs }, [Event.snapshotBeginLocal])
    else .ok (ru, [Event.engineBegin])
  | ReadSource.kAllCommittedSnapshot =>
    if ru.readAtTimestamp = 0 then
      .ok ({ ru with readAtTimestamp := o.allCommittedActualReadTs },
        [Event.engineBegin, Event.engineSetReadTs o.allCommittedActualReadTs true])
    else ru.providedPath o.providedStatus
  | ReadSource.kLastAppliedSnapshot =>
    if ru.readAtTimestamp = 0 then
      .ok ({ ru with readAtTimestamp := o.localSnapshotTs }, [Event.snapshotBeginLocal])
    else ru.providedPath o.providedStatus
  | ReadSource.kProvided => ru.providedPath o.providedStatus

/-- Mirrors `getSession`: open a transaction if none is open and move into
the active state family. -/
def getSession (ru : RecoveryUnit) (o : TxnOpenOracle) : RUResult :=
  if ¬ ru.state.isActive then
    match ru.txnOpen o with
    | .error e => .error e
    | .ok (ru1, ev) =>
      .ok ({ ru1 with
        state := if ru1.state.inUnitOfWork then State.kActive
                 else State.kActiveNotInUnitOfWork }, ev)
  else .ok (ru, [])

/-- Mirrors `prepareUnitOfWork`: requires a unit of work with a prepare
timestamp; obtains the session (opening the transaction if necessary) and
prepares the live transaction. -/
def prepareUnitOfWork (ru : RecoveryUnit) (o : TxnOpenOracle) : RUResult :=
  if ¬ ru.state.inUnitOfWork then .error .fatal
  else if ru.prepareTimestamp = 0 then .error .fatal
  else
    match ru.getSession o with
    | .error e => .error e
    | .ok (ru1, ev) => .ok (ru1, ev ++ [Event.enginePrepare ru.prepareTimestamp])

/-- Mirrors `abandonSnapshot`. -/
def abandonSnapshot (ru : RecoveryUnit) : RUResult :=
  if ru.state.inUnitOfWork then .error .fatal
  else
    match (if ru.state.isActive then ru.txnClose false else .ok (ru, [])) with
    | .error e => .error e
    | .ok (ru1, ev) => .ok ({ ru1 with state := State.kInactive }, ev)

/-- Mirrors `preallocateSnapshot`. -/
def preallocateSnapshot (ru : RecoveryUnit) (o : TxnOpenOracle) : RUResult :=
  ru.getSession o

/-- Mirrors `setTimestamp(Timestamp)` with the engine answering the
`timestamp_transaction` call with return code `rc` (`0` means success).
Returns the status the caller sees alongside the new state and events. -/
def setTimestamp (ru : RecoveryUnit) (ts : Timestamp) (o : TxnOpenOracle) (rc : Int) :
    Except Err (RecoveryUnit × List Event × Option Int) :=
  let ru := ru.ensureSession
  if ¬ ru.state.inUnitOfWork then .error .fatal
  else if ru.prepareTimestamp ≠ 0 then .error .fatal
  else if ru.commitTimestamp ≠ 0 then .error .fatal
  else
    let ru := { ru with lastTimestampSet := some ts }
    match ru.getSession o with
    | .error e => .error e
    | .ok (ru1, ev) =>
      let ru2 := if rc = 0 then { ru1 with isTimestamped := true } else ru1
      .ok (ru2, ev ++ [Event.engineTimestampTxn ts], if rc = 0 then none else some rc)

/-- Mirrors `setCommitTimestamp(Timestamp)`. -/
def setCommitTimestamp (ru : RecoveryUnit) (ts : Timestamp) : RUResult :=
  if ¬ (¬ ru.state.inUnitOfWork ∨ ru.prepareTimestamp ≠ 0) then .error .fatal
  else if ru.commitTimestamp ≠ 0 then .error .fatal
  else if ru.lastTimestampSet.isSome then .error .fatal
  else if ru.isTimestamped then .error .fatal
  else .ok ({ ru with commitTimestamp := ts }, [])

/-- Mirrors `clearCommitTimestamp`. -/
def clearCommitTimestamp (ru : RecoveryUnit) : RUResult :=
  if ru.state.inUnitOfWork then .error .fatal
  else if ru.commitTimestamp = 0 then .error .fatal
  else if ru.lastTimestampSet.isSome then .error .fatal
  else if ru.isTimestamped then .error .fatal
  else .ok ({ ru with commitTimestamp := 0 }, [])

/-- Mirrors `setPrepareTimestamp(Timestamp)`. -/
def setPrepareTimestamp (ru : RecoveryUnit) (ts : Timestamp) : RUResult :=
  if ¬ ru.state.inUnitOfWork then .error .fatal
  else if ru.prepareTimestamp ≠ 0 then .error .fatal
  else if ru.commitTimestamp ≠ 0 then .error .fatal
  else if ru.lastTimestampSet.isSome then .error .fatal
  else .ok ({ ru with prepareTimestamp := ts }, [])

/-- Mirrors `setIgnorePrepared(bool)`. -/
def setIgnorePrepared (ru : RecoveryUnit) (b : Bool) : RUResult :=
  .ok ({ ru with ignorePrepared := b }, [])

/-- Mirrors `setTimestampReadSource(ReadSource, boost::optional<Timestamp>)`. -/
def setTimestampReadSource (ru : RecoveryUnit) (src : ReadSource)
    (provided : Option Timestamp) : RUResult :=
  if ¬ (¬ ru.state.isActive ∨ ru.timestampReadSource = src) then .error .fatal
  else if ¬ (provided.isNone = decide (src ≠ ReadSource.kProvided)) then .error .fatal
  else if (provided.getD 1) = 0 then .error .fatal
  else .ok ({ ru with timestampReadSource := src, readAtTimestamp := provided.getD 0 }, [])

/-- Mirrors `getSessionNoTxn` (session acquisition only; the queued-drop
toggle is not modelled). -/
def getSessionNoTxn (ru : RecoveryUnit) : RUResult :=
  .ok (ru.ensureSession, [])

/-- Mirrors the destructor `~WiredTigerRecoveryUnit`: fatal when still in
a unit of work, otherwise runs the abort path. -/
def destruct (ru : RecoveryUnit) (fp : Bool) : RUResult :=
  if ru.state.inUnitOfWork then .error .fatal else ru.abortImpl fp

/-- Effective commit time as computed at the top of `_commit`:
`_commitTimestamp.isNull() ? _lastTimestampSet : _commitTimestamp`. -/
def effectiveCommitTime (ru : RecoveryUnit) : Option Timestamp :=
  if ru.commitTimestamp = 0 then ru.lastTimestampSet else some ru.commitTimestamp

end RecoveryUnit

/-- Does this event invoke a change handler's callback? -/
def Event.isHandler : Event → Bool
  | .handlerCommit _ _ => true
  | .handlerRollback _ => true
  | _ => false

/-- Number of occurrences of the event `e` in a trace. -/
def countEv (e : Event) : List Event → Nat
  | [] => 0
  | x :: xs => (if x = e then 1 else 0) + countEv e xs

/-- Resulting recovery unit of a successful operation, if any. -/
def okRU : RUResult → Option RecoveryUnit
  | .ok (ru, _) => some ru
  | .error _ => none

/-- One externally invocable operation of the recovery unit, together with
the oracle answers the collaborators give while it runs. -/
inductive Op where
  | beginUOW
  | commitUOW (fp : Bool)
  | abortUOW (fp : Bool)
  | register (h : Nat)
  | getSess (o : TxnOpenOracle)
  | prepareUOW (o : TxnOpenOracle)
  | abandon
  | preallocate (o : TxnOpenOracle)
  | setTs (ts : Timestamp) (o : TxnOpenOracle) (rc : Int)
  | setCommitTs (ts : Timestamp)
  | clearCommitTs
  | setPrepareTs (ts : Timestamp)
  | setIgnorePrep (b : Bool)
  | setReadSource (src : ReadSource) (provided : Option Timestamp)
  | sessNoTxn

/-- Dispatch one operation against the recovery unit. -/
def step (ru : RecoveryUnit) : Op → RUResult
  | .beginUOW => ru.beginUnitOfWork
  | .commitUOW fp => ru.commitUnitOfWork fp
  | .abortUOW fp => ru.abortUnitOfWork fp
  | .register h => ru.registerChange h
  | .getSess o => ru.getSession o
  | .prepareUOW o => ru.prepareUnitOfWork o
  | .abandon => ru.abandonSnapshot
  | .preallocate o => ru.preallocateSnapshot o
  | .setTs ts o rc =>
    match ru.setTimestamp ts o rc with
    | .error e => .error e
    | .ok (ru', ev, _) => .ok (ru', ev)
  | .setCommitTs ts => ru.setCommitTimestamp ts
  | .clearCommitTs => ru.clearCommitTimestamp
  | .setPrepareTs ts => ru.setPrepareTimestamp ts
  | .setIgnorePrep b => ru.setIgnorePrepared b
  | .setReadSource src provided => ru.setTimestampReadSource src provided
  | .sessNoTxn => ru.getSessionNoTxn

/-- Run a sequence of operations; stops at the first fatal assertion or
thrown exception. -/
def runOps (ru : RecoveryUnit) : List Op → Except Err RecoveryUnit
  | [] => .ok ru
  | op :: ops =>
    match step ru op with
    | .error e => .error e
    | .ok (ru', _) => runOps ru' ops

/-- The timestamp invariant of the spec: `commitTimestamp` and
`lastTimestampSet` are never both non-empty. -/
def TsInvariant (ru : RecoveryUnit) : Prop :=
  ru.commitTimestamp = 0 ∨ ru.lastTimestampSet = none

/-- Oracle giving trivial collaborator answers (no local snapshot, all
engine calls succeed). -/
def o0 : TxnOpenOracle :=
  { oplogReadTs := 0
    oplogSetTsOK := true
    committedSnapshotTs := 0
    localSnapshotAvailable := false
    localSnapshotTs := 0
    allCommittedActualReadTs := 0
    providedStatus := none }

/-- Recovery unit holding an open transaction (outside any unit of work)
with a pending explicit commit timestamp of 7. -/
def c2ru : RecoveryUnit :=
  { RecoveryUnit.init 1 with
      state := State.kActiveNotInUnitOfWork
      session := true
      commitTimestamp := 7 }

/-- Result state of closing `c2ru`'s transaction with commit. -/
def c2ruClosed : RecoveryUnit := (okRU (c2ru.txnClose true)).getD c2ru

/-- Recovery unit inside a not-yet-active unit of work with a prepare
timestamp of 5 (as after `beginUnitOfWork; setPrepareTimestamp(5)`). -/
def c6ru : RecoveryUnit :=
  { RecoveryUnit.init 1 with
      state := State.kInactiveInUnitOfWork
      prepareTimestamp := 5 }

/-- Result state of `prepareUnitOfWork` on `c6ru`. -/
def c6ruPrepared : RecoveryUnit := (okRU (c6ru.prepareUnitOfWork o0)).getD c6ru

/-- Recovery unit in an active unit of work with two registered handlers
and a per-write timestamp of 7 (as after `beginUnitOfWork;
registerChange(10); registerChange(11); setTimestamp(7)` with the
`isTimestamped` flag reading of the engine success elided). -/
def uowRU : RecoveryUnit :=
  { RecoveryUnit.init 1 with
      state := State.kActive
      session := true
      changes := [10, 11]
      lastTimestampSet := some 7 }

/-- Result state of committing `uowRU`'s unit of work. -/
def uowRUCommitted : RecoveryUnit := (okRU (uowRU.commitUnitOfWork false)).getD uowRU

/-- Result state of aborting `uowRU`'s unit of work. -/
def uowRUAborted : RecoveryUnit := (okRU (uowRU.abortUnitOfWork false)).getD uowRU

/-- Recovery unit with an open timestamped transaction whose commits are
unordered (`orderedCommit = false`), outside any unit of work. -/
def c4ru : RecoveryUnit :=
  { RecoveryUnit.init 1 with
      state := State.kActiveNotInUnitOfWork
      session := true
      isTimestamped := true
      orderedCommit := false }

/-- Result state of destroying `c4ru`. -/
def c4ruDestroyed : RecoveryUnit := (okRU (c4ru.destruct false)).getD c4ru

/-- Recovery unit configured for a caller-provided read timestamp of 3. -/
def c7ru : RecoveryUnit :=
  { RecoveryUnit.init 1 with
      timestampReadSource := ReadSource.kProvided
      readAtTimestamp := 3 }

/-- Recovery unit inside a prepared unit of work on an open transaction. -/
def preparedRU : RecoveryUnit :=
  { RecoveryUnit.init 1 with
      state := State.kActive
      session := true
      prepareTimestamp := 5 }

/-- Result state of committing the prepared unit of work of `preparedRU`. -/
def preparedRUCommitted : RecoveryUnit :=
  (okRU (preparedRU.commitUnitOfWork false)).getD preparedRU

/-- Recovery unit inside an active, not yet timestamped unit of work. -/
def c9ru : RecoveryUnit :=
  { RecoveryUnit.init 1 with
      state := State.kActive
      session := true }

/-- Expected state of `c9ru` after a `setTimestamp(7)` rejected by the
engine: the last timestamp is recorded anyway. -/
def c9ruAfter : RecoveryUnit := { c9ru with lastTimestampSet := some 7 }

/-- Oracle whose engine rejects the provided read timestamp as BadValue. -/
def o7bad : TxnOpenOracle := { o0 with providedStatus := some ErrorCode.BadValue }

/-- Idle recovery unit carrying a pending explicit commit timestamp 7. -/
def c2base : RecoveryUnit := { RecoveryUnit.init 1 with commitTimestamp := 7 }

/-- Result state of `clearCommitTimestamp` on `c2base`. -/
def c2clearedRU : RecoveryUnit := (okRU c2base.clearCommitTimestamp).getD c2base

/-- Result state of closing `c4ru`'s transaction with commit. -/
def c4ruClosed : RecoveryUnit := (okRU (c4ru.txnClose true)).getD c4ru

/-- Final state of running `setCommitTimestamp(5)` on a fresh recovery
unit. -/
def c5ruFinal : RecoveryUnit := { RecoveryUnit.init 0 with commitTimestamp := 5 }

theorem countEv_append (e : Event) (l₁ l₂ : List Event) :
    countEv e (l₁ ++ l₂) = countEv e l₁ + countEv e l₂ := by
  induction l₁ with
  | nil => simp [countEv]
  | cons x xs ih => simp [countEv, ih]; omega

theorem countEv_eq_zero_of (e : Event) (l : List Event) (h : ∀ x ∈ l, x ≠ e) :
    countEv e l = 0 := by
  induction l with
  | nil => rfl
  | cons x xs ih =>
    have hx : ¬ (x = e) := h x (by simp)
    simp only [countEv, if_neg hx, Nat.zero_add]
    exact ih fun y hy => h y (by simp [hy])

theorem txnClose_ok (ru ru' : RecoveryUnit) (c : Bool) (ev : List Event)
    (h : ru.txnClose c = .ok (ru', ev)) :
    ru' = { ru with
      lastTimestampSet := none
      prepareTimestamp := 0
      mySnapshotId := ru.ctr % 2 ^ 64
      ctr := (ru.ctr + 1) % 2 ^ 64
      isOplogReader := false
      orderedCommit := true
      isTimestamped := false } ∧
    ev = (if c && ru.commitTimestamp ≠ 0 then [Event.engineTimestampTxn ru.commitTimestamp] else [])
      ++ (if c then Event.engineCommit else Event.engineRollback)
        :: (if (ru.isTimestamped || (c && ru.commitTimestamp ≠ 0)) && ¬ ru.orderedCommit then
              [Event.triggerJournalFlush] else []) := by
  simp only [RecoveryUnit.txnClose, fetchAndAdd] at h
  split at h
  · simp at h
  · split at h
    · simp at h
    · simp only [Except.ok.injEq, Prod.mk.injEq] at h
      exact ⟨h.1.symm, h.2.symm⟩

theorem ensureSession_fields (ru : RecoveryUnit) :
    (ru.ensureSession).state = ru.state ∧
    (ru.ensureSession).changes = ru.changes ∧
    (ru.ensureSession).commitTimestamp = ru.commitTimestamp ∧
    (ru.ensureSession).lastTimestampSet = ru.lastTimestampSet ∧
    (ru.ensureSession).prepareTimestamp = ru.prepareTimestamp ∧
    (ru.ensureSession).isTimestamped = ru.isTimestamped ∧
    (ru.ensureSession).orderedCommit = ru.orderedCommit ∧
    (ru.ensureSession).ctr = ru.ctr ∧
    (ru.ensureSession).mySnapshotId = ru.mySnapshotId ∧
    (ru.ensureSession).timestampReadSource = ru.timestampReadSource ∧
    (ru.ensureSession).readAtTimestamp = ru.readAtTimestamp ∧
    (ru.ensureSession).session = true := by
  unfold RecoveryUnit.ensureSession
  split <;> simp_all

theorem txnOpen_fields (ru ru' : RecoveryUnit) (o : TxnOpenOracle) (ev : List Event)
    (h : ru.txnOpen o = .ok (ru', ev)) :
    ru'.state = ru.state ∧ ru'.changes = ru.changes ∧
    ru'.commitTimestamp = ru.commitTimestamp ∧
    ru'.lastTimestampSet = ru.lastTimestampSet ∧
    ru'.prepareTimestamp = ru.prepareTimestamp ∧
    ru'.isTimestamped = ru.isTimestamped ∧
    ru'.orderedCommit = ru.orderedCommit ∧
    ru'.ctr = ru.ctr ∧ ru'.mySnapshotId = ru.mySnapshotId ∧
    ru'.session = true := by
  unfold RecoveryUnit.txnOpen RecoveryUnit.providedPath RecoveryUnit.ensureSession at h
  split at h
  · simp at h
  split at h
  · simp at h
  by_cases hs : ru.session = true <;>
    simp only [hs, if_true, if_false, Bool.false_eq_true] at h <;>
    split at h <;>
    (try split at h) <;>
    (try split at h) <;>
    first
      | (simp_all; done)
      | (simp only [Except.ok.injEq, Prod.mk.injEq] at h
         obtain ⟨h1, h2⟩ := h
         subst h1
         subst h2
         simp_all)

theorem getSession_ok (ru ru' : RecoveryUnit) (o : TxnOpenOracle) (ev : List Event)
    (h : ru.getSession o = .ok (ru', ev)) :
    ru'.state.inUnitOfWork = ru.state.inUnitOfWork ∧
    ru'.state.isActive = true ∧
    ru'.changes = ru.changes ∧
    ru'.commitTimestamp = ru.commitTimestamp ∧
    ru'.lastTimestampSet = ru.lastTimestampSet ∧
    ru'.prepareTimestamp = ru.prepareTimestamp ∧
    ru'.isTimestamped = ru.isTimestamped ∧
    ru'.orderedCommit = ru.orderedCommit ∧
    ru'.ctr = ru.ctr ∧ ru'.mySnapshotId = ru.mySnapshotId ∧
    (ru.state.isActive = true → ru' = ru) := by
  unfold RecoveryUnit.getSession at h
  split at h
  · rename_i hact
    cases hop : ru.txnOpen o with
    | error e => simp [hop] at h
    | ok p =>
      obtain ⟨ru1, ev1⟩ := p
      simp only [hop, Except.ok.injEq, Prod.mk.injEq] at h
      obtain ⟨h1, h2⟩ := h
      obtain ⟨f1, f2, f3, f4, f5, f6, f7, f8, f9, f10⟩ := txnOpen_fields ru ru1 o ev1 hop
      subst h1
      subst h2
      refine ⟨?_, ?_, f2, f3, f4, f5, f6, f7, f8, f9, ?_⟩
      · rw [← f1]
        cases hu : ru1.state.inUnitOfWork <;>
          simp [hu, State.inUnitOfWork]
      · cases hu : ru1.state.inUnitOfWork <;>
          simp [hu, State.isActive]
      · intro hA
        exact absurd hA (by simpa using hact)
  · rename_i hact
    simp only [Except.ok.injEq, Prod.mk.injEq] at h
    obtain ⟨h1, h2⟩ := h
    subst h1
    subst h2
    simp_all

theorem txnClose_events (ru ru1 : RecoveryUnit) (c : Bool) (ev1 : List Event)
    (h : ru.txnClose c = .ok (ru1, ev1)) :
    ev1.filter Event.isHandler = [] ∧
    countEv Event.notifyPrepared ev1 = 0 ∧
    (c = false → countEv Event.engineCommit ev1 = 0) ∧
    (c = false → countEv Event.engineRollback ev1 = 1) := by
  obtain ⟨-, hev⟩ := txnClose_ok ru ru1 c ev1 h
  subst hev
  split_ifs <;>
    simp_all [Event.isHandler, countEv, countEv_append]

theorem filter_handler_map_commit (l : List Nat) (t : Option Timestamp) :
    (l.map (fun c => Event.handlerCommit c t)).filter Event.isHandler
      = l.map (fun c => Event.handlerCommit c t) := by
  induction l <;> simp_all [Event.isHandler]

theorem filter_handler_map_rollback (l : List Nat) :
    (l.map (fun c => Event.handlerRollback c)).filter Event.isHandler
      = l.map (fun c => Event.handlerRollback c) := by
  induction l <;> simp_all [Event.isHandler]

theorem countEv_map_commit (e : Event) (l : List Nat) (t : Option Timestamp)
    (he : ∀ c, Event.handlerCommit c t ≠ e) :
    countEv e (l.map (fun c => Event.handlerCommit c t)) = 0 :=
  countEv_eq_zero_of _ _ (by simpa using fun c _ => he c)

theorem countEv_map_rollback (e : Event) (l : List Nat)
    (he : ∀ c, Event.handlerRollback c ≠ e) :
    countEv e (l.map (fun c => Event.handlerRollback c)) = 0 :=
  countEv_eq_zero_of _ _ (by simpa using fun c _ => he c)

theorem countEv_reverse (e : Event) (l : List Event) :
    countEv e l.reverse = countEv e l := by
  induction l with
  | nil => rfl
  | cons x xs ih =>
    simp only [List.reverse_cons, countEv_append, ih, countEv]
    omega

theorem commitImpl_spec (ru ru' : RecoveryUnit) (fp : Bool) (ev : List Event)
    (h : ru.commitImpl fp = .ok (ru', ev)) :
    ru'.changes = [] ∧ ru'.state = State.kInactive ∧
    ev.filter Event.isHandler
      = ru.changes.map (fun c => Event.handlerCommit c ru.effectiveCommitTime) ∧
    countEv Event.notifyPrepared ev
      = (if ru.prepareTimestamp ≠ 0 ∨ fp = true then 1 else 0) := by
  unfold RecoveryUnit.commitImpl at h
  by_cases hcond : (ru.session && ru.state.isActive) = true <;>
    simp only [hcond, if_true, if_false, Bool.false_eq_true, reduceIte] at h
  · cases hcl : ru.txnClose true with
    | error e => simp [hcl] at h
    | ok p =>
      obtain ⟨ru1, ev1⟩ := p
      simp only [hcl, Except.ok.injEq, Prod.mk.injEq] at h
      obtain ⟨h1, h2⟩ := h
      subst h1
      subst h2
      obtain ⟨hru1, -⟩ := txnClose_ok ru ru1 true ev1 hcl
      obtain ⟨hf, hn, -, -⟩ := txnClose_events ru ru1 true ev1 hcl
      refine ⟨rfl, rfl, ?_, ?_⟩
      · simp only [List.filter_append, hf, List.nil_append, RecoveryUnit.effectiveCommitTime]
        have hch : ru1.changes = ru.changes := by rw [hru1]
        rw [hch]
        by_cases hp : ru.prepareTimestamp = 0 <;> cases fp <;>
          simp [hp, Event.isHandler, filter_handler_map_commit]
      · simp only [countEv_append, hn]
        by_cases hp : ru.prepareTimestamp = 0 <;> cases fp <;>
          simp [hp, countEv, countEv_map_commit]
  · simp only [Except.ok.injEq, Prod.mk.injEq] at h
    obtain ⟨h1, h2⟩ := h
    subst h1
    subst h2
    refine ⟨rfl, rfl, ?_, ?_⟩
    · simp only [List.filter_append, RecoveryUnit.effectiveCommitTime]
      by_cases hp : ru.prepareTimestamp = 0 <;> cases fp <;>
        simp [hp, Event.isHandler, filter_handler_map_commit]
    · by_cases hp : ru.prepareTimestamp = 0 <;> cases fp <;>
        simp [hp, countEv, countEv_append, countEv_map_commit]

theorem abortImpl_spec (ru ru' : RecoveryUnit) (fp : Bool) (ev : List Event)
    (h : ru.abortImpl fp = .ok (ru', ev)) :
    ru'.changes = [] ∧ ru'.state = State.kInactive ∧
    ev.filter Event.isHandler
      = ru.changes.reverse.map (fun c => Event.handlerRollback c) ∧
    countEv Event.notifyPrepared ev
      = (if ru.prepareTimestamp ≠ 0 ∨ fp = true then 1 else 0) ∧
    countEv Event.engineCommit ev = 0 ∧
    ((ru.session && ru.state.isActive) = true → countEv Event.engineRollback ev ≥ 1) := by
  unfold RecoveryUnit.abortImpl at h
  by_cases hcond : (ru.session && ru.state.isActive) = true <;>
    simp only [hcond, if_true, if_false, Bool.false_eq_true, reduceIte] at h
  · cases hcl : ru.txnClose false with
    | error e => simp [hcl] at h
    | ok p =>
      obtain ⟨ru1, ev1⟩ := p
      simp only [hcl, Except.ok.injEq, Prod.mk.injEq] at h
      obtain ⟨h1, h2⟩ := h
      subst h1
      subst h2
      obtain ⟨hru1, -⟩ := txnClose_ok ru ru1 false ev1 hcl
      obtain ⟨hf, hn, hcc, hcr⟩ := txnClose_events ru ru1 false ev1 hcl
      have hch : ru1.changes = ru.changes := by rw [hru1]
      refine ⟨rfl, rfl, ?_, ?_, ?_, ?_⟩
      · simp only [List.filter_append, hf, List.nil_append, hch]
        by_cases hp : ru.prepareTimestamp = 0 <;> cases fp <;>
          simp [hp, Event.isHandler, filter_handler_map_rollback]
      · simp only [countEv_append, hn]
        by_cases hp : ru.prepareTimestamp = 0 <;> cases fp <;>
          simp [hp, countEv, countEv_reverse, countEv_map_rollback]
      · simp only [countEv_append, hcc rfl]
        by_cases hp : ru.prepareTimestamp = 0 <;> cases fp <;>
          simp [hp, countEv, countEv_reverse, countEv_map_rollback]
      · intro
        simp only [countEv_append, hcr rfl]
        omega
  · simp only [Except.ok.injEq, Prod.mk.injEq] at h
    obtain ⟨h1, h2⟩ := h
    subst h1
    subst h2
    refine ⟨rfl, rfl, ?_, ?_, ?_, ?_⟩
    · simp only [List.filter_append]
      by_cases hp : ru.prepareTimestamp = 0 <;> cases fp <;>
        simp [hp, Event.isHandler, filter_handler_map_rollback]
    · by_cases hp : ru.prepareTimestamp = 0 <;> cases fp <;>
        simp [hp, countEv, countEv_append, countEv_reverse, countEv_map_rollback]
    · by_cases hp : ru.prepareTimestamp = 0 <;> cases fp <;>
        simp [hp, countEv, countEv_append, countEv_reverse, countEv_map_rollback]
    · intro hc
      exact absurd hc (by simp [hcond])

/-- C1: within a unit of work, `commitUnitOfWork` invokes every registered
handler's commit callback in insertion order, passing the effective commit
time (`commitTimestamp` if non-empty, else `lastTimestampSet`, else none),
while `abortUnitOfWork` invokes the rollback callbacks in reverse
insertion order; in both cases the change list is empty afterwards. -/
theorem commitUnitOfWork_handler_order (ru : RecoveryUnit) (fp : Bool) :
    (∀ ru' ev, ru.commitUnitOfWork fp = .ok (ru', ev) →
      ev.filter Event.isHandler
        = ru.changes.map (fun c => Event.handlerCommit c ru.effectiveCommitTime) ∧
      ru'.changes = []) ∧
    (∀ ru' ev, ru.abortUnitOfWork fp = .ok (ru', ev) →
      ev.filter Event.isHandler
        = ru.changes.reverse.map (fun c => Event.handlerRollback c) ∧
      ru'.changes = []) := by
  constructor <;> intro ru' ev h
  · unfold RecoveryUnit.commitUnitOfWork at h
    split at h
    · simp at h
    · obtain ⟨h1, -, h2, -⟩ := commitImpl_spec ru ru' fp ev h
      exact ⟨h2, h1⟩
  · unfold RecoveryUnit.abortUnitOfWork at h
    split at h
    · simp at h
    · obtain ⟨h1, -, h2, -⟩ := abortImpl_spec ru ru' fp ev h
      exact ⟨h2, h1⟩

/-- Witness for C1: a unit of work registering handlers 10 then 11 with a
per-write timestamp of 7 commits them in order with commit time 7 and
rolls them back in reverse order. -/
theorem commitUnitOfWork_handler_order_witness :
    (([Event.engineCommit, Event.handlerCommit 10 (some 7),
        Event.handlerCommit 11 (some 7)].filter Event.isHandler
      = uowRU.changes.map (fun c => Event.handlerCommit c uowRU.effectiveCommitTime)) ∧
      uowRUCommitted.changes = []) ∧
    (([Event.engineRollback, Event.handlerRollback 11,
        Event.handlerRollback 10].filter Event.isHandler
      = uowRU.changes.reverse.map (fun c => Event.handlerRollback c)) ∧
      uowRUAborted.changes = []) :=
  ⟨(commitUnitOfWork_handler_order uowRU false).1 uowRUCommitted _ (by rfl),
   (commitUnitOfWork_handler_order uowRU false).2 uowRUAborted _ (by rfl)⟩

/-- C2 counterexample: closing the transaction of `c2ru` (whose explicit
commit timestamp is 7) leaves `commitTimestamp` equal to 7, i.e. not
empty, refuting that `_txnClose` always clears it. -/
theorem txnClose_leaves_commitTimestamp_set :
    (okRU (c2ru.txnClose true)).map RecoveryUnit.commitTimestamp = some 7 ∧
    c2ruClosed.commitTimestamp ≠ 0 := by decide

/-- C2 (amended): `_txnClose` clears `lastTimestampSet`,
`prepareTimestamp`, `isTimestamped` and `isOplogReader` and resets
`orderedCommit`, but leaves `commitTimestamp` unchanged; the commit
timestamp carries over to the next transaction until an explicit
`clearCommitTimestamp`, which alone empties it. -/
theorem txnClose_commitTimestamp_persistence (ru ru' : RecoveryUnit) (c : Bool)
    (ev : List Event) :
    (ru.txnClose c = .ok (ru', ev) →
      ru'.commitTimestamp = ru.commitTimestamp ∧ ru'.lastTimestampSet = none ∧
      ru'.prepareTimestamp = 0 ∧ ru'.isTimestamped = false ∧
      ru'.isOplogReader = false ∧ ru'.orderedCommit = true) ∧
    (ru.clearCommitTimestamp = .ok (ru', ev) → ru'.commitTimestamp = 0) := by
  constructor
  · intro h
    obtain ⟨h1, -⟩ := txnClose_ok ru ru' c ev h
    subst h1
    exact ⟨rfl, rfl, rfl, rfl, rfl, rfl⟩
  · intro h
    unfold RecoveryUnit.clearCommitTimestamp at h
    split at h
    · simp at h
    split at h
    · simp at h
    split at h
    · simp at h
    split at h
    · simp at h
    simp only [Except.ok.injEq, Prod.mk.injEq] at h
    obtain ⟨h1, -⟩ := h
    subst h1
    rfl

/-- Witness for C2 (amended) at `c2ru` (transaction close) and `c2base`
(explicit clear). -/
theorem txnClose_commitTimestamp_persistence_witness :
    (c2ruClosed.commitTimestamp = c2ru.commitTimestamp ∧
      c2ruClosed.lastTimestampSet = none ∧ c2ruClosed.prepareTimestamp = 0 ∧
      c2ruClosed.isTimestamped = false ∧ c2ruClosed.isOplogReader = false ∧
      c2ruClosed.orderedCommit = true) ∧
    c2clearedRU.commitTimestamp = 0 :=
  ⟨(txnClose_commitTimestamp_persistence c2ru c2ruClosed true
      [Event.engineTimestampTxn 7, Event.engineCommit]).1 (by rfl),
   (txnClose_commitTimestamp_persistence c2base c2clearedRU true []).2 (by rfl)⟩

/-- C3: whenever commit or abort of a unit of work completes, the session
cache's prepare-conflict notification is issued exactly once if the unit
of work was prepared (`prepareTimestamp` non-empty at the call) or the
always-notify fail point is armed, and not at all otherwise — in
particular exactly once for every prepared unit of work regardless of
commit vs abort. -/
theorem prepared_notify_exactly_once (ru : RecoveryUnit) (fp : Bool) :
    (∀ ru' ev, ru.commitUnitOfWork fp = .ok (ru', ev) →
      countEv Event.notifyPrepared ev
        = (if ru.prepareTimestamp ≠ 0 ∨ fp = true then 1 else 0)) ∧
    (∀ ru' ev, ru.abortUnitOfWork fp = .ok (ru', ev) →
      countEv Event.notifyPrepared ev
        = (if ru.prepareTimestamp ≠ 0 ∨ fp = true then 1 else 0)) := by
  constructor <;> intro ru' ev h
  · unfold RecoveryUnit.commitUnitOfWork at h
    split at h
    · simp at h
    · exact (commitImpl_spec ru ru' fp ev h).2.2.2
  · unfold RecoveryUnit.abortUnitOfWork at h
    split at h
    · simp at h
    · exact (abortImpl_spec ru ru' fp ev h).2.2.2.1

/-- Witness for C3: committing the prepared unit of work of `preparedRU`
notifies the prepare-conflict waiters exactly once. -/
theorem prepared_notify_exactly_once_witness :
    countEv Event.notifyPrepared [Event.engineCommit, Event.notifyPrepared]
      = (if preparedRU.prepareTimestamp ≠ 0 ∨ false = true then 1 else 0) :=
  (prepared_notify_exactly_once preparedRU false).1 preparedRUCommitted _ (by rfl)

/-- C4: a transaction close calls `triggerJournalFlush` on the oplog
manager exactly once when the transaction was timestamped (the
`isTimestamped` flag, including the commit timestamp applied during this
very close) and `orderedCommit` is false, and never otherwise; the flush
happens after the engine commit/rollback call. -/
theorem txnClose_triggerJournalFlush_once (ru ru' : RecoveryUnit) (c : Bool)
    (ev : List Event) (h : ru.txnClose c = .ok (ru', ev)) :
    countEv Event.triggerJournalFlush ev
      = (if (ru.isTimestamped = true ∨ (c = true ∧ ru.commitTimestamp ≠ 0))
            ∧ ru.orderedCommit = false then 1 else 0) ∧
    ∃ l₁ l₂, ev = l₁ ++ (if c then Event.engineCommit else Event.engineRollback) :: l₂ ∧
      countEv Event.triggerJournalFlush l₁ = 0 := by
  obtain ⟨-, hev⟩ := txnClose_ok ru ru' c ev h
  subst hev
  constructor
  · cases c <;> cases hts : ru.isTimestamped <;> cases hoc : ru.orderedCommit <;>
      by_cases hct : ru.commitTimestamp = 0 <;>
      simp [hts, hoc, hct, countEv, countEv_append]
  · refine ⟨_, _, rfl, ?_⟩
    split_ifs <;> simp [countEv]

/-- Witness for C4: closing the unordered timestamped transaction of
`c4ru` triggers exactly one journal flush, after the engine commit. -/
theorem txnClose_triggerJournalFlush_once_witness :
    countEv Event.triggerJournalFlush [Event.engineCommit, Event.triggerJournalFlush]
      = (if (c4ru.isTimestamped = true ∨ (true = true ∧ c4ru.commitTimestamp ≠ 0))
            ∧ c4ru.orderedCommit = false then 1 else 0) ∧
    ∃ l₁ l₂, [Event.engineCommit, Event.triggerJournalFlush]
        = l₁ ++ (if true then Event.engineCommit else Event.engineRollback) :: l₂ ∧
      countEv Event.triggerJournalFlush l₁ = 0 :=
  txnClose_triggerJournalFlush_once c4ru c4ruClosed true _ (by rfl)

/-- C6 counterexample: calling `prepareUnitOfWork` on `c6ru` (a unit of
work whose transaction is not yet open, state `kInactiveInUnitOfWork`)
succeeds but leaves the recovery unit in state `kActive`, so the state
observed after the call differs from the state observed before. -/
theorem prepareUnitOfWork_changes_state :
    (okRU (c6ru.prepareUnitOfWork o0)).map RecoveryUnit.state = some State.kActive ∧
    c6ru.state = State.kInactiveInUnitOfWork ∧
    State.kActive ≠ State.kInactiveInUnitOfWork := by decide

/-- C6 (amended): `prepareUnitOfWork` requires a unit of work with
`prepareTimestamp` set; it opens the transaction first if necessary —
moving `kInactiveInUnitOfWork` to `kActive` — and when the transaction is
already open (`kActive`) it changes nothing at all; in every successful
case the unit of work remains open, all timestamp fields and the change
list are untouched, and the live transaction is prepared at
`prepareTimestamp` as the last collaborator call. -/
theorem prepareUnitOfWork_amended (ru ru' : RecoveryUnit) (o : TxnOpenOracle)
    (ev : List Event) (h : ru.prepareUnitOfWork o = .ok (ru', ev)) :
    ru'.state = State.kActive ∧
    ru'.state.inUnitOfWork = true ∧
    ru'.changes = ru.changes ∧
    ru'.commitTimestamp = ru.commitTimestamp ∧
    ru'.lastTimestampSet = ru.lastTimestampSet ∧
    ru'.prepareTimestamp = ru.prepareTimestamp ∧
    ru'.isTimestamped = ru.isTimestamped ∧
    (ru.state = State.kActive → ru' = ru) ∧
    ev.getLast? = some (Event.enginePrepare ru.prepareTimestamp) := by
  unfold RecoveryUnit.prepareUnitOfWork at h
  split at h
  · simp at h
  split at h
  · simp at h
  rename_i hu hp
  cases hs : ru.getSession o with
  | error e => simp [hs] at h
  | ok p =>
    obtain ⟨ru1, ev1⟩ := p
    simp only [hs, Except.ok.injEq, Prod.mk.injEq] at h
    obtain ⟨h1, h2⟩ := h
    subst h1
    subst h2
    obtain ⟨g1, g2, g3, g4, g5, g6, g7, -, -, -, gid⟩ := getSession_ok ru ru1 o ev1 hs
    have huow : ru1.state.inUnitOfWork = true := by
      rw [g1]
      simpa using hu
    have hstate : ru1.state = State.kActive := by
      cases hst : ru1.state <;> rw [hst] at huow g2 <;>
        simp_all [State.isActive, State.inUnitOfWork]
    refine ⟨hstate, huow, g3, g4, g5, g6, g7, ?_, ?_⟩
    · intro hA
      exact gid (by rw [hA]; rfl)
    · simp

/-- Witness for C6 (amended) at `c6ru` with the trivial oracle. -/
theorem prepareUnitOfWork_amended_witness :
    c6ruPrepared.state = State.kActive ∧
    c6ruPrepared.state.inUnitOfWork = true ∧
    c6ruPrepared.changes = c6ru.changes ∧
    c6ruPrepared.commitTimestamp = c6ru.commitTimestamp ∧
    c6ruPrepared.lastTimestampSet = c6ru.lastTimestampSet ∧
    c6ruPrepared.prepareTimestamp = c6ru.prepareTimestamp ∧
    c6ruPrepared.isTimestamped = c6ru.isTimestamped ∧
    (c6ru.state = State.kActive → c6ruPrepared = c6ru) ∧
    [Event.engineBegin, Event.enginePrepare 5].getLast?
      = some (Event.enginePrepare c6ru.prepareTimestamp) :=
  prepareUnitOfWork_amended c6ru c6ruPrepared o0 _ (by rfl)

/-- C7: opening a transaction with read source `Provided` sets the
caller-supplied read timestamp on the engine; a `BadValue` rejection is
surfaced as `SnapshotTooOld`, any other engine error is surfaced
unchanged, and on engine success the open completes. -/
theorem txnOpen_provided_error_mapping (ru : RecoveryUnit) (o : TxnOpenOracle)
    (hsrc : ru.timestampReadSource = ReadSource.kProvided)
    (hact : ru.state.isActive = false)
    (hca : ru.state.isCommittingOrAborting = false) :
    (o.providedStatus = some ErrorCode.BadValue →
      ru.txnOpen o = .error (.thrown ErrorCode.SnapshotTooOld)) ∧
    (∀ e, o.providedStatus = some e → e ≠ ErrorCode.BadValue →
      ru.txnOpen o = .error (.thrown e)) ∧
    (o.providedStatus = none →
      ru.txnOpen o = .ok (ru.ensureSession,
        [Event.engineBegin, Event.engineSetReadTs ru.readAtTimestamp false])) := by
  obtain ⟨-, -, -, -, -, -, -, -, -, e10, e11, -⟩ := ensureSession_fields ru
  refine ⟨?_, ?_, ?_⟩
  · intro hbv
    simp [RecoveryUnit.txnOpen, hact, hca, RecoveryUnit.providedPath, e10, hsrc, hbv]
  · intro e he hne
    cases e <;>
      simp_all [RecoveryUnit.txnOpen, RecoveryUnit.providedPath, e10]
  · intro hok
    simp [RecoveryUnit.txnOpen, hact, hca, RecoveryUnit.providedPath, e10, e11, hsrc, hok]

/-- Witness for C7: `c7ru` with a `BadValue`-rejecting engine surfaces
`SnapshotTooOld`. -/
theorem txnOpen_provided_error_mapping_witness :
    c7ru.txnOpen o7bad = .error (.thrown ErrorCode.SnapshotTooOld) :=
  (txnOpen_provided_error_mapping c7ru o7bad (by rfl) (by rfl) (by rfl)).1 (by rfl)

theorem snapshotIdSeq_getD (c n i : Nat) (hi : i < n) :
    (snapshotIdSeq c n).getD i 0 = (c + i) % 2 ^ 64 := by
  induction n generalizing c i with
  | zero => omega
  | succ n ih =>
    cases i with
    | zero => simp [snapshotIdSeq, fetchAndAdd]
    | succ i =>
      have hrec := ih ((c + 1) % 2 ^ 64) i (by omega)
      simp only [snapshotIdSeq, fetchAndAdd, List.getD_cons_succ, hrec,
        Nat.mod_add_mod]
      congr 1
      omega

/-- C8 counterexample: the snapshot-id counter is a 64-bit atomic and
wraps modulo 2^64: in the allocation sequence of a process started at the
initial counter value 1, the id produced at index 2^64 - 1 is 0, which is
not greater than the id 2^64 - 1 produced immediately before it, and the
id produced at index 2^64 equals the very first id — so over arbitrary
allocation counts snapshot ids are neither strictly increasing nor free
of reuse. -/
theorem snapshotId_wraps :
    (snapshotIdSeq 1 (2 ^ 64)).getD (2 ^ 64 - 2) 0 = 2 ^ 64 - 1 ∧
    (snapshotIdSeq 1 (2 ^ 64)).getD (2 ^ 64 - 1) 0 = 0 ∧
    ¬ ((snapshotIdSeq 1 (2 ^ 64)).getD (2 ^ 64 - 2) 0
        < (snapshotIdSeq 1 (2 ^ 64)).getD (2 ^ 64 - 1) 0) ∧
    (snapshotIdSeq 1 (2 ^ 64 + 1)).getD (2 ^ 64) 0
      = (snapshotIdSeq 1 (2 ^ 64 + 1)).getD 0 0 := by
  have e : (2 : Nat) ^ 64 = 18446744073709551616 := by norm_num
  have h1 := snapshotIdSeq_getD 1 (2 ^ 64) (2 ^ 64 - 2) (by norm_num)
  have h2 := snapshotIdSeq_getD 1 (2 ^ 64) (2 ^ 64 - 1) (by norm_num)
  have h3 := snapshotIdSeq_getD 1 (2 ^ 64 + 1) (2 ^ 64) (by norm_num)
  have h4 := snapshotIdSeq_getD 1 (2 ^ 64 + 1) 0 (by norm_num)
  rw [h1, h2, h3, h4, e]
  omega

/-- C8 (amended): snapshot ids are drawn from the process-wide 64-bit
`nextSnapshotId` counter by one fetch-and-add at construction and after
every transaction close; within any allocation window in which the
counter does not wrap (all counter values stay below 2^64, which covers
the first 2^64 - 1 ids of a process whose counter starts at 1), every
later id is strictly greater than every earlier id and no id is reused;
a recovery unit constructed at counter value `c` takes id `c mod 2^64`
and advances the counter. -/
theorem snapshotId_strictly_increasing (c n i j : Nat) (hij : i < j) (hj : j < n)
    (hn : c + n ≤ 2 ^ 64) :
    (snapshotIdSeq c n).getD i 0 < (snapshotIdSeq c n).getD j 0 ∧
    (snapshotIdSeq c n).getD i 0 ≠ (snapshotIdSeq c n).getD j 0 ∧
    (RecoveryUnit.init c).mySnapshotId = c % 2 ^ 64 ∧
    (RecoveryUnit.init c).ctr = (c + 1) % 2 ^ 64 := by
  rw [snapshotIdSeq_getD c n i (Nat.lt_trans hij hj), snapshotIdSeq_getD c n j hj]
  have hi2 : (c + i) % 2 ^ 64 = c + i := Nat.mod_eq_of_lt (by omega)
  have hj2 : (c + j) % 2 ^ 64 = c + j := Nat.mod_eq_of_lt (by omega)
  rw [hi2, hj2]
  exact ⟨by omega, by omega, rfl, rfl⟩

/-- Witness for C8 (amended): in the first five allocations starting from
counter 1 — well below the wrap — the first id is smaller than the
fourth. -/
theorem snapshotId_strictly_increasing_witness :
    (snapshotIdSeq 1 5).getD 0 0 < (snapshotIdSeq 1 5).getD 3 0 ∧
    (snapshotIdSeq 1 5).getD 0 0 ≠ (snapshotIdSeq 1 5).getD 3 0 ∧
    (RecoveryUnit.init 1).mySnapshotId = 1 % 2 ^ 64 ∧
    (RecoveryUnit.init 1).ctr = (1 + 1) % 2 ^ 64 :=
  snapshotId_strictly_increasing 1 5 0 3 (by omega) (by omega) (by norm_num)

/-- C9: when `setTimestamp` runs in a unit of work (prepare and commit
timestamps empty) and the engine answers `timestamp_transaction` with
return code `rc`, the status handed back to the caller is non-fatal and
reflects `rc`, `lastTimestampSet` is left equal to the attempted timestamp
even on engine failure, and `isTimestamped` is newly set only when the
engine call succeeded. -/
theorem setTimestamp_engine_error_behavior (ru ru' : RecoveryUnit) (ts : Timestamp)
    (o : TxnOpenOracle) (rc : Int) (ev : List Event) (st : Option Int)
    (h : ru.setTimestamp ts o rc = .ok (ru', ev, st)) :
    ru'.lastTimestampSet = some ts ∧
    st = (if rc = 0 then none else some rc) ∧
    ru'.isTimestamped = (if rc = 0 then true else ru.isTimestamped) := by
  unfold RecoveryUnit.setTimestamp at h
  obtain ⟨-, -, -, -, -, g6, -, -, -, -, -, -⟩ := ensureSession_fields ru
  cases hgs : RecoveryUnit.getSession
      { ru.ensureSession with lastTimestampSet := some ts } o with
  | error e =>
    simp only [hgs] at h
    split at h
    · simp at h
    split at h
    · simp at h
    split at h
    · simp at h
    simp at h
  | ok p =>
    obtain ⟨ru1, ev1⟩ := p
    simp only [hgs] at h
    have hfix := getSession_ok _ ru1 o ev1 hgs
    have hl : ru1.lastTimestampSet = some ts := by
      simpa using hfix.2.2.2.2.1
    have hi : ru1.isTimestamped = ru.isTimestamped := by
      simpa [g6] using hfix.2.2.2.2.2.2.1
    by_cases hrc : rc = 0
    · simp only [hrc, reduceIte] at h
      split at h
      · simp at h
      split at h
      · simp at h
      split at h
      · simp at h
      simp only [Except.ok.injEq, Prod.mk.injEq] at h
      obtain ⟨h1, -, h3⟩ := h
      subst h1
      subst h3
      simp_all
    · simp only [hrc, reduceIte] at h
      split at h
      · simp at h
      split at h
      · simp at h
      split at h
      · simp at h
      simp only [Except.ok.injEq, Prod.mk.injEq] at h
      obtain ⟨h1, -, h3⟩ := h
      subst h1
      subst h3
      simp_all

/-- Witness for C9 at `c9ru` with the engine rejecting return code 22. -/
theorem setTimestamp_engine_error_behavior_witness :
    c9ruAfter.lastTimestampSet = some 7 ∧
    (some 22 : Option Int) = (if (22 : Int) = 0 then none else some 22) ∧
    c9ruAfter.isTimestamped = (if (22 : Int) = 0 then true else c9ru.isTimestamped) :=
  setTimestamp_engine_error_behavior c9ru c9ruAfter 7 o0 22
    [Event.engineTimestampTxn 7] (some 22) (by rfl)

/-- C10: destroying a recovery unit that is still in a unit of work is a
fatal assertion; otherwise destruction runs the abort path, which never
commits the engine transaction, rolls back an open one, and — with the
change list empty, as it always is outside a unit of work — invokes no
handlers. -/
theorem destruct_behavior (ru : RecoveryUnit) (fp : Bool) :
    (ru.state.inUnitOfWork = true → ru.destruct fp = .error .fatal) ∧
    (∀ ru' ev, ru.destruct fp = .ok (ru', ev) →
      countEv Event.engineCommit ev = 0 ∧
      (ru.changes = [] → ev.filter Event.isHandler = []) ∧
      ((ru.session && ru.state.isActive) = true →
        countEv Event.engineRollback ev ≥ 1)) := by
  constructor
  · intro hu
    unfold RecoveryUnit.destruct
    simp [hu]
  · intro ru' ev h
    unfold RecoveryUnit.destruct at h
    split at h
    · simp at h
    obtain ⟨-, -, hf, -, hcc, hcr⟩ := abortImpl_spec ru ru' fp ev h
    exact ⟨hcc, fun hch => by simp [hf, hch], hcr⟩

/-- Witness for C10: destroying `c4ru` (open transaction, no unit of work,
empty change list) rolls back, never commits and runs no handlers. -/
theorem destruct_behavior_witness :
    countEv Event.engineCommit [Event.engineRollback, Event.triggerJournalFlush] = 0 ∧
    (c4ru.changes = [] →
      [Event.engineRollback, Event.triggerJournalFlush].filter Event.isHandler = []) ∧
    ((c4ru.session && c4ru.state.isActive) = true →
      countEv Event.engineRollback [Event.engineRollback, Event.triggerJournalFlush] ≥ 1) :=
  (destruct_behavior c4ru false).2 c4ruDestroyed _ (by rfl)

theorem commitImpl_ts_fields (ru ru' : RecoveryUnit) (fp : Bool) (ev : List Event)
    (h : ru.commitImpl fp = .ok (ru', ev)) :
    ru'.commitTimestamp = ru.commitTimestamp ∧
    (ru'.lastTimestampSet = none ∨ ru'.lastTimestampSet = ru.lastTimestampSet) := by
  unfold RecoveryUnit.commitImpl at h
  by_cases hcond : (ru.session && ru.state.isActive) = true <;>
    simp only [hcond, if_true, if_false, Bool.false_eq_true, reduceIte] at h
  · cases hcl : ru.txnClose true with
    | error e => simp [hcl] at h
    | ok p =>
      obtain ⟨ru1, ev1⟩ := p
      simp only [hcl, Except.ok.injEq, Prod.mk.injEq] at h
      obtain ⟨h1, -⟩ := h
      subst h1
      obtain ⟨hru1, -⟩ := txnClose_ok ru ru1 true ev1 hcl
      subst hru1
      exact ⟨rfl, Or.inl rfl⟩
  · simp only [Except.ok.injEq, Prod.mk.injEq] at h
    obtain ⟨h1, -⟩ := h
    subst h1
    exact ⟨rfl, Or.inr rfl⟩

theorem abortImpl_ts_fields (ru ru' : RecoveryUnit) (fp : Bool) (ev : List Event)
    (h : ru.abortImpl fp = .ok (ru', ev)) :
    ru'.commitTimestamp = ru.commitTimestamp ∧
    (ru'.lastTimestampSet = none ∨ ru'.lastTimestampSet = ru.lastTimestampSet) := by
  unfold RecoveryUnit.abortImpl at h
  by_cases hcond : (ru.session && ru.state.isActive) = true <;>
    simp only [hcond, if_true, if_false, Bool.false_eq_true, reduceIte] at h
  · cases hcl : ru.txnClose false with
    | error e => simp [hcl] at h
    | ok p =>
      obtain ⟨ru1, ev1⟩ := p
      simp only [hcl, Except.ok.injEq, Prod.mk.injEq] at h
      obtain ⟨h1, -⟩ := h
      subst h1
      obtain ⟨hru1, -⟩ := txnClose_ok ru ru1 false ev1 hcl
      subst hru1
      exact ⟨rfl, Or.inl rfl⟩
  · simp only [Except.ok.injEq, Prod.mk.injEq] at h
    obtain ⟨h1, -⟩ := h
    subst h1
    exact ⟨rfl, Or.inr rfl⟩

theorem setTimestamp_ok_commitTs (ru ru1 : RecoveryUnit) (ts : Timestamp)
    (o : TxnOpenOracle) (rc : Int) (ev : List Event) (st : Option Int)
    (h : ru.setTimestamp ts o rc = .ok (ru1, ev, st)) :
    ru1.commitTimestamp = 0 := by
  unfold RecoveryUnit.setTimestamp at h
  cases hgs : RecoveryUnit.getSession
      { ru.ensureSession with lastTimestampSet := some ts } o with
  | error e =>
    simp only [hgs] at h
    split at h
    · simp at h
    split at h
    · simp at h
    split at h
    · simp at h
    simp at h
  | ok p =>
    obtain ⟨ru2, ev2⟩ := p
    simp only [hgs] at h
    have hc2 : ru2.commitTimestamp = (ru.ensureSession).commitTimestamp := by
      simpa using (getSession_ok _ ru2 o ev2 hgs).2.2.2.1
    by_cases hrc : rc = 0
    · simp only [hrc, reduceIte] at h
      split at h
      · simp at h
      split at h
      · simp at h
      split at h
      · simp at h
      rename_i hcc
      simp only [Except.ok.injEq, Prod.mk.injEq] at h
      obtain ⟨h1, -⟩ := h
      subst h1
      simpa [hc2] using hcc
    · simp only [hrc, reduceIte] at h
      split at h
      · simp at h
      split at h
      · simp at h
      split at h
      · simp at h
      rename_i hcc
      simp only [Except.ok.injEq, Prod.mk.injEq] at h
      obtain ⟨h1, -⟩ := h
      subst h1
      simpa [hc2] using hcc

theorem step_preserves_TsInvariant (ru ru' : RecoveryUnit) (op : Op) (ev : List Event)
    (hInv : TsInvariant ru) (h : step ru op = .ok (ru', ev)) : TsInvariant ru' := by
  cases op with
  | beginUOW =>
    simp only [step] at h
    unfold RecoveryUnit.beginUnitOfWork at h
    split at h
    · simp at h
    split at h
    · simp at h
    simp only [Except.ok.injEq, Prod.mk.injEq] at h
    obtain ⟨h1, -⟩ := h
    subst h1
    simpa [TsInvariant] using hInv
  | commitUOW fp =>
    simp only [step] at h
    unfold RecoveryUnit.commitUnitOfWork at h
    split at h
    · simp at h
    obtain ⟨hc, hl⟩ := commitImpl_ts_fields ru ru' fp ev h
    unfold TsInvariant at hInv ⊢
    rcases hl with hl | hl
    · exact Or.inr hl
    · rw [hc, hl]
      exact hInv
  | abortUOW fp =>
    simp only [step] at h
    unfold RecoveryUnit.abortUnitOfWork at h
    split at h
    · simp at h
    obtain ⟨hc, hl⟩ := abortImpl_ts_fields ru ru' fp ev h
    unfold TsInvariant at hInv ⊢
    rcases hl with hl | hl
    · exact Or.inr hl
    · rw [hc, hl]
      exact hInv
  | register c =>
    simp only [step] at h
    unfold RecoveryUnit.registerChange at h
    split at h
    · simp at h
    simp only [Except.ok.injEq, Prod.mk.injEq] at h
    obtain ⟨h1, -⟩ := h
    subst h1
    simpa [TsInvariant] using hInv
  | getSess o =>
    simp only [step] at h
    obtain ⟨-, -, -, g4, g5, -, -, -, -, -, -⟩ := getSession_ok ru ru' o ev h
    unfold TsInvariant at hInv ⊢
    rw [g4, g5]
    exact hInv
  | prepareUOW o =>
    simp only [step] at h
    unfold RecoveryUnit.prepareUnitOfWork at h
    split at h
    · simp at h
    split at h
    · simp at h
    cases hs : ru.getSession o with
    | error e => simp [hs] at h
    | ok p =>
      obtain ⟨ru1, ev1⟩ := p
      simp only [hs, Except.ok.injEq, Prod.mk.injEq] at h
      obtain ⟨h1, -⟩ := h
      subst h1
      obtain ⟨-, -, -, g4, g5, -, -, -, -, -, -⟩ := getSession_ok ru ru1 o ev1 hs
      unfold TsInvariant at hInv ⊢
      rw [g4, g5]
      exact hInv
  | abandon =>
    simp only [step] at h
    unfold RecoveryUnit.abandonSnapshot at h
    split at h
    · simp at h
    by_cases ha : ru.state.isActive = true <;>
      simp only [ha, if_true, if_false, Bool.false_eq_true, reduceIte] at h
    · cases hcl : ru.txnClose false with
      | error e => simp [hcl] at h
      | ok p =>
        obtain ⟨ru1, ev1⟩ := p
        simp only [hcl, Except.ok.injEq, Prod.mk.injEq] at h
        obtain ⟨h1, -⟩ := h
        subst h1
        obtain ⟨hru1, -⟩ := txnClose_ok ru ru1 false ev1 hcl
        subst hru1
        exact Or.inr rfl
    · simp only [Except.ok.injEq, Prod.mk.injEq] at h
      obtain ⟨h1, -⟩ := h
      subst h1
      simpa [TsInvariant] using hInv
  | preallocate o =>
    simp only [step] at h
    unfold RecoveryUnit.preallocateSnapshot at h
    obtain ⟨-, -, -, g4, g5, -, -, -, -, -, -⟩ := getSession_ok ru ru' o ev h
    unfold TsInvariant at hInv ⊢
    rw [g4, g5]
    exact hInv
  | setTs ts o rc =>
    simp only [step] at h
    cases hst : ru.setTimestamp ts o rc with
    | error e => simp [hst] at h
    | ok p =>
      obtain ⟨ru1, ev1, st⟩ := p
      simp only [hst, Except.ok.injEq, Prod.mk.injEq] at h
      obtain ⟨h1, -⟩ := h
      subst h1
      exact Or.inl (setTimestamp_ok_commitTs ru ru1 ts o rc ev1 st hst)
  | setCommitTs ts =>
    simp only [step] at h
    unfold RecoveryUnit.setCommitTimestamp at h
    split at h
    · simp at h
    split at h
    · simp at h
    split at h
    · simp at h
    rename_i hsome
    split at h
    · simp at h
    simp only [Except.ok.injEq, Prod.mk.injEq] at h
    obtain ⟨h1, -⟩ := h
    subst h1
    refine Or.inr ?_
    cases hx : ru.lastTimestampSet <;> simp_all
  | clearCommitTs =>
    simp only [step] at h
    unfold RecoveryUnit.clearCommitTimestamp at h
    split at h
    · simp at h
    split at h
    · simp at h
    split at h
    · simp at h
    split at h
    · simp at h
    simp only [Except.ok.injEq, Prod.mk.injEq] at h
    obtain ⟨h1, -⟩ := h
    subst h1
    exact Or.inl rfl
  | setPrepareTs ts =>
    simp only [step] at h
    unfold RecoveryUnit.setPrepareTimestamp at h
    split at h
    · simp at h
    split at h
    · simp at h
    split at h
    · simp at h
    split at h
    · simp at h
    simp only [Except.ok.injEq, Prod.mk.injEq] at h
    obtain ⟨h1, -⟩ := h
    subst h1
    simpa [TsInvariant] using hInv
  | setIgnorePrep b =>
    simp only [step] at h
    unfold RecoveryUnit.setIgnorePrepared at h
    simp only [Except.ok.injEq, Prod.mk.injEq] at h
    obtain ⟨h1, -⟩ := h
    subst h1
    simpa [TsInvariant] using hInv
  | setReadSource src provided =>
    simp only [step] at h
    unfold RecoveryUnit.setTimestampReadSource at h
    split at h
    · simp at h
    split at h
    · simp at h
    split at h
    · simp at h
    simp only [Except.ok.injEq, Prod.mk.injEq] at h
    obtain ⟨h1, -⟩ := h
    subst h1
    simpa [TsInvariant] using hInv
  | sessNoTxn =>
    simp only [step] at h
    unfold RecoveryUnit.getSessionNoTxn at h
    simp only [Except.ok.injEq, Prod.mk.injEq] at h
    obtain ⟨h1, -⟩ := h
    subst h1
    obtain ⟨-, -, g3, g4, -, -, -, -, -, -, -, -⟩ := ensureSession_fields ru
    unfold TsInvariant at hInv ⊢
    rw [g3, g4]
    exact hInv

theorem runOps_preserves_TsInvariant (ops : List Op) :
    ∀ ru ru', TsInvariant ru → runOps ru ops = .ok ru' → TsInvariant ru' := by
  induction ops with
  | nil =>
    intro ru ru' hInv h
    unfold runOps at h
    simp only [Except.ok.injEq] at h
    rwa [← h]
  | cons op rest ih =>
    intro ru ru' hInv h
    unfold runOps at h
    cases hs : step ru op with
    | error e => simp [hs] at h
    | ok p =>
      obtain ⟨ru1, ev⟩ := p
      simp only [hs] at h
      exact ih ru1 ru' (step_preserves_TsInvariant ru ru1 op ev hInv hs) h

/-- C5: along every sequence of legal (non-asserting) operations started
on a freshly constructed recovery unit, `commitTimestamp` and
`lastTimestampSet` are never both non-empty: every reachable state
satisfies the timestamp invariant. -/
theorem ts_invariant_reachable (c : Nat) (ops : List Op) (ru' : RecoveryUnit)
    (h : runOps (RecoveryUnit.init c) ops = .ok ru') :
    TsInvariant ru' ∧ (ru'.commitTimestamp ≠ 0 → ru'.lastTimestampSet = none) := by
  have hInv : TsInvariant ru' :=
    runOps_preserves_TsInvariant ops (RecoveryUnit.init c) ru' (Or.inl rfl) h
  refine ⟨hInv, fun hc => ?_⟩
  rcases hInv with hl | hl
  · exact absurd hl hc
  · exact hl

/-- Witness for C5: after `setCommitTimestamp(5)` on a fresh recovery
unit, the invariant holds. -/
theorem ts_invariant_reachable_witness :
    TsInvariant c5ruFinal ∧
    (c5ruFinal.commitTimestamp ≠ 0 → c5ruFinal.lastTimestampSet = none) :=
  ts_invariant_reachable 0 [Op.setCommitTs 5] c5ruFinal (by rfl)

end Mongo
